import Mathlib

/-!
Verification of the `compose` docker-compose generator (`compose/compose.go`).

The program is embedded shallowly: each Go function becomes a Lean
definition over `Int` (Go `int`; no arithmetic here approaches the 64-bit
bound for the validated ranges) and `String`.  The OS-supplied current-user
id is threaded through as an explicit `uid : String` argument, and the
fatal / warning behaviour of `main` is modelled with `Except` plus a list of
warnings.  Go statements of the form `x := base; if c { x = f x }` are
embedded as `let x := if c then f base else base`, field by field.
-/

namespace Compose

/-- Volume mount record (Go struct `Volume`). -/
structure Volume where
  type : String
  source : String
  target : String
  readOnly : Bool
deriving DecidableEq

/-- Service record (Go struct `Service`); `name` is the unexported key field. -/
structure Service where
  name : String
  image : String
  containerName : String
  workingDir : String
  dependsOn : List String
  labels : List (String × String)
  environment : List String
  ports : List String
  volumes : List Volume
  tempFS : List String
  user : String
  command : String
deriving DecidableEq

/-- Command-line options (Go struct `Options`). -/
structure Options where
  numZeros : Int
  numAlphas : Int
  numGroups : Int
  lruSizeMB : Int
  enterpriseMode : Bool
  aclSecret : String
  dataDir : String
  dataVol : Bool
  tempFS : Bool
  userOwnership : Bool
  jaeger : Bool
  testPortRange : Bool
  verbosity : Int
  outFile : String
deriving DecidableEq

/-- Constant `zeroBasePort`. -/
def zeroBasePort : Int := 5080

/-- Constant `alphaBasePort`. -/
def alphaBasePort : Int := 7080

/-- Go `name(prefix, idx)`: `fmt.Sprintf("%s%d", prefix, idx)`. -/
def name (pfx : String) (idx : Int) : String := pfx ++ toString idx

/-- Go `toExposedPort(i)`: `fmt.Sprintf("%d:%d", i, i)`. -/
def toExposedPort (i : Int) : String := toString i ++ ":" ++ toString i

/-- Go `initService(basename, idx, grpcPort)`.  `opts` is the global options
value and `uid` the OS-reported current user id (`user.Current().Uid`),
consulted only when `opts.userOwnership` is set. -/
def initService (opts : Options) (uid : String) (basename : String)
    (idx grpcPort : Int) : Service :=
  let nm := name basename idx
  { name := nm
    image := "dgraph/dgraph:latest"
    containerName := nm
    workingDir := if opts.userOwnership then "/working/" ++ nm else "/data/" ++ nm
    dependsOn := if idx > 1 then [name basename (idx - 1)] else []
    labels := [("cluster", "test")]
    environment := []
    ports := [toExposedPort grpcPort, toExposedPort (grpcPort + 1000)]
    volumes := [Volume.mk "bind" "$GOPATH/bin" "/gobin" true]
      ++ (if opts.dataVol = true then [Volume.mk "volume" "data" "/data" false]
          else if opts.dataDir ≠ "" then [Volume.mk "bind" opts.dataDir "/data" false]
          else [])
    tempFS := []
    user := if opts.userOwnership then "$\x7bUID:-" ++ uid ++ "\x7d" else ""
    command := "/gobin/dgraph"
      ++ (if opts.userOwnership then " --cwd=/data/" ++ nm else "")
      ++ (if opts.jaeger then " --jaeger.collector=http://jaeger:14268" else "") }

/-- Go `getOffset(idx)`. -/
def getOffset (idx : Int) : Int := if idx = 1 then 0 else idx

/-- The zero (coordinator) grpc port: `zeroBasePort + getOffset(idx)`. -/
def zeroGrpcPort (idx : Int) : Int := zeroBasePort + getOffset idx

/-- The alpha extra port shift: `baseOffset` in `getAlpha`. -/
def alphaBaseOffset (opts : Options) : Int := if opts.testPortRange then 100 else 0

/-- The alpha (worker) internal port: `alphaBasePort + baseOffset + getOffset(idx)`. -/
def alphaInternalPort (opts : Options) (idx : Int) : Int :=
  alphaBasePort + alphaBaseOffset opts + getOffset idx

/-- Models `int(math.Ceil(float64(a) / float64(g)))` from `getZero`.  For the
validated ranges (`1 ≤ a ≤ 99`, `1 ≤ g`) both operands are exactly
representable in float64 and the quotient is never within float64 rounding
error of an integer it does not equal, so the float computation coincides
with the exact integer ceiling `⌈a/g⌉ = ⌊(a+g-1)/g⌋`. -/
def ceilOfDiv (a g : Int) : Int := (a + g - 1).ediv g

/-- Go `getZero(idx)`. -/
def getZero (opts : Options) (uid : String) (idx : Int) : Service :=
  let svc := initService opts uid "zero" idx (zeroGrpcPort idx)
  { svc with
    tempFS := if opts.tempFS then ["/data/" ++ svc.name ++ "/zw"] else []
    command := svc.command
      ++ " zero -o " ++ toString (idx - 1) ++ " --idx=" ++ toString idx
      ++ " --my=" ++ svc.name ++ ":" ++ toString (zeroGrpcPort idx)
      ++ " --replicas=" ++ toString (ceilOfDiv opts.numAlphas opts.numGroups)
      ++ " --logtostderr -v=" ++ toString opts.verbosity
      ++ (if idx = 1 then " --bindall"
          else " --peer=" ++ name "zero" 1 ++ ":" ++ toString zeroBasePort) }

/-- Go `getAlpha(idx)`. -/
def getAlpha (opts : Options) (uid : String) (idx : Int) : Service :=
  let internalPort := alphaInternalPort opts idx
  let svc := initService opts uid "alpha" idx (internalPort + 1000)
  { svc with
    tempFS := if opts.tempFS then ["/data/" ++ svc.name ++ "/w"] else []
    command := svc.command
      ++ " alpha -o " ++ toString (alphaBaseOffset opts + idx - 1)
      ++ " --my=" ++ svc.name ++ ":" ++ toString internalPort
      ++ " --lru_mb=" ++ toString opts.lruSizeMB
      ++ " --zero=zero1:" ++ toString zeroBasePort
      ++ " --logtostderr -v=" ++ toString opts.verbosity
      ++ " --whitelist=10.0.0.0/8,172.16.0.0/12,192.168.0.0/16"
      ++ (if opts.enterpriseMode then
            " --enterprise_features"
            ++ (if opts.aclSecret ≠ "" then
                  " --acl_secret_file=/secret/hmac --acl_access_ttl 10s"
                else "")
          else "")
    volumes := svc.volumes
      ++ (if opts.enterpriseMode ∧ opts.aclSecret ≠ "" then
            [Volume.mk "bind" opts.aclSecret "/secret/hmac" true]
          else []) }

/-- Go `getJaeger()`; the unexported `name` field keeps Go's zero value. -/
def getJaeger : Service :=
  { name := ""
    image := "jaegertracing/all-in-one:latest"
    containerName := "jaeger"
    workingDir := "/working/jaeger"
    dependsOn := []
    labels := []
    environment := ["COLLECTOR_ZIPKIN_HTTP_PORT=9411"]
    ports := [toExposedPort 16686]
    volumes := []
    tempFS := []
    user := ""
    command := "--memory.max-traces=1000000" }

/-- The sanity checks of `main` (compose.go lines 296-315): fatal errors
become `Except.error` with the Go message, the ACL warning becomes an entry
in the returned warning list alongside the (possibly enterprise-forced)
options. -/
def sanityChecks (opts : Options) : Except String (Options × List String) :=
  if opts.numZeros < 1 ∨ opts.numZeros > 99 then
    .error "number of zeros must be 1-99"
  else if opts.numAlphas < 1 ∨ opts.numAlphas > 99 then
    .error "number of alphas must be 1-99"
  else if opts.lruSizeMB < 1024 then
    .error "LRU cache size must be >= 1024 MB"
  else
    let warns :=
      if opts.aclSecret ≠ "" ∧ opts.enterpriseMode = false then
        ["adding --enterprise because it is required by ACL feature"]
      else []
    let opts :=
      if opts.aclSecret ≠ "" ∧ opts.enterpriseMode = false then
        { opts with enterpriseMode := true }
      else opts
    if opts.dataVol = true ∧ opts.dataDir ≠ "" then
      .error "only one of --data_vol and --data_dir may be used at a time"
    else if opts.userOwnership = true ∧ opts.dataDir = "" then
      .error "--user option requires --data_dir=<path>"
    else .ok (opts, warns)

/-- The service map built by `main` (compose.go lines 317-341), as an
association list in insertion order: zeros 1..NumZeros, alphas 1..NumAlphas,
then the jaeger entry when requested. -/
def buildServices (opts : Options) (uid : String) : List (String × Service) :=
  ((List.range opts.numZeros.toNat).map fun (i : Nat) =>
    let svc := getZero opts uid ((i : Int) + 1); (svc.name, svc))
  ++ ((List.range opts.numAlphas.toNat).map fun (i : Nat) =>
    let svc := getAlpha opts uid ((i : Int) + 1); (svc.name, svc))
  ++ (if opts.jaeger then [("jaeger", getJaeger)] else [])

/-- Predicate holding when, for `containsStr s pat`, `pat` occurs contiguously inside `s`. -/
def containsStr (s pat : String) : Prop := pat.data <:+: s.data

instance (s pat : String) : Decidable (containsStr s pat) :=
  List.decidableInfix pat.data s.data

/-- Key comparison used by the modelled serializer: mapping keys are
traversed in nondecreasing `String` order. -/
def keyLE (a b : String × Service) : Prop := a.1 ≤ b.1

instance : DecidableRel keyLE := fun a b => inferInstanceAs (Decidable (a.1 ≤ b.1))

/-- Modelled from the spec: the YAML library (`yaml.Marshal`, not part of
this repository) serializes mappings with deterministic key traversal, so
the service map is rendered in sorted key order. -/
def sortServices (svcs : List (String × Service)) : List (String × Service) :=
  List.insertionSort keyLE svcs

/-- Modelled from the spec: one volume mount as rendered by the serializer. -/
def renderVolume (v : Volume) : String :=
  " " ++ v.type ++ ":" ++ v.source ++ ":" ++ v.target ++ (if v.readOnly then ":ro" else "")

/-- Modelled from the spec: one service record as rendered by the serializer. -/
def renderService (key : String) (svc : Service) : String :=
  "  " ++ key ++ ":\n    image: " ++ svc.image
  ++ "\n    container_name: " ++ svc.containerName
  ++ "\n    working_dir: " ++ svc.workingDir
  ++ "\n    depends_on:" ++ String.join (svc.dependsOn.map fun d => " " ++ d)
  ++ "\n    labels:" ++ String.join (svc.labels.map fun p => " " ++ p.1 ++ "=" ++ p.2)
  ++ "\n    environment:" ++ String.join (svc.environment.map fun e => " " ++ e)
  ++ "\n    ports:" ++ String.join (svc.ports.map fun p => " " ++ p)
  ++ "\n    volumes:" ++ String.join (svc.volumes.map renderVolume)
  ++ "\n    tmpfs:" ++ String.join (svc.tempFS.map fun t => " " ++ t)
  ++ (if svc.user ≠ "" then "\n    user: " ++ svc.user else "")
  ++ "\n    command: " ++ svc.command ++ "\n"

/-- Modelled from the spec: the serializer of `main` (compose.go lines
343-364).  The provenance comment records the invocation arguments
(`os.Args`), then the topology document follows with services in
deterministic key order and the named-volume section when `--data_vol` is
set. -/
def renderConfig (opts : Options) (svcs : List (String × Service))
    (args : List String) : String :=
  "# Auto-generated with: [" ++ String.intercalate " " args ++ "]\n#\n"
  ++ "version: '3.5'\nservices:\n"
  ++ String.join ((sortServices svcs).map fun p => renderService p.1 p.2)
  ++ "volumes:" ++ (if opts.dataVol then "\n  data:\n" else " \n")

/-- End-to-end run of `main` after flag parsing: validate, build the service
map, serialize.  An `Except.error` models the fatal nonzero exit, in which
case no topology output is produced. -/
def generate (opts0 : Options) (uid : String) (args : List String) :
    Except String String :=
  match sanityChecks opts0 with
  | .error e => .error e
  | .ok (opts, _warns) => .ok (renderConfig opts (buildServices opts uid) args)

/-- The option values a run inherits from the flag defaults when only
`--num_zeros=1 --num_alphas=1` is passed. -/
def exampleOpts : Options :=
  { numZeros := 1, numAlphas := 1, numGroups := 1, lruSizeMB := 1024
    enterpriseMode := false, aclSecret := "", dataDir := "", dataVol := false
    tempFS := false, userOwnership := false, jaeger := false
    testPortRange := true, verbosity := 2, outFile := "./docker-compose.yml" }

end Compose

/-! ### Helper lemmas -/

namespace Compose

lemma string_append_left_cancel {a b c : String} (h : a ++ b = a ++ c) : b = c := by
  have hd := congrArg String.data h
  simp only [String.data_append] at hd
  exact String.ext (List.append_cancel_left hd)

set_option maxRecDepth 40000 in
lemma natRepr_inj_small : ∀ i < 100, ∀ j < 100, Nat.repr i = Nat.repr j → i = j := by decide

lemma toString_intCast (n : Nat) : toString ((n : Int)) = Nat.repr n := rfl

lemma toString_int_succ (i : Nat) : toString ((i : Int) + 1) = Nat.repr (i + 1) := by
  have h : ((i : Int) + 1) = ((i + 1 : Nat) : Int) := by push_cast; ring
  rw [h, toString_intCast]

lemma name_inj_small (pfx : String) {i j : Nat} (hi : i < 99) (hj : j < 99)
    (h : name pfx ((i : Int) + 1) = name pfx ((j : Int) + 1)) : i = j := by
  have h2 := string_append_left_cancel h
  rw [toString_int_succ, toString_int_succ] at h2
  have h3 := natRepr_inj_small (i + 1) (by omega) (j + 1) (by omega) h2
  omega

lemma zero_ne_alpha (a b : Int) : name "zero" a ≠ name "alpha" b := by
  intro h
  have h1 := congrArg String.data h
  simp only [name, String.data_append] at h1
  simp at h1

lemma zero_ne_jaeger (a : Int) : name "zero" a ≠ "jaeger" := by
  intro h
  have h1 := congrArg String.data h
  simp only [name, String.data_append] at h1
  simp at h1

lemma alpha_ne_jaeger (a : Int) : name "alpha" a ≠ "jaeger" := by
  intro h
  have h1 := congrArg String.data h
  simp only [name, String.data_append] at h1
  simp at h1

lemma buildServices_keys (opts : Options) (uid : String) :
    (buildServices opts uid).map Prod.fst =
      ((List.range opts.numZeros.toNat).map fun (i : Nat) => name "zero" ((i : Int) + 1))
      ++ ((List.range opts.numAlphas.toNat).map fun (i : Nat) => name "alpha" ((i : Int) + 1))
      ++ (if opts.jaeger then ["jaeger"] else []) := by
  cases hj : opts.jaeger <;>
    simp only [buildServices, hj, if_true, if_false, List.map_append, List.map_map] <;> rfl

lemma names_zero_nodup (N : Nat) (hN : N ≤ 99) :
    ((List.range N).map fun (i : Nat) => name "zero" ((i : Int) + 1)).Nodup := by
  rw [List.nodup_map_iff_inj_on (List.nodup_range N)]
  intro x hx y hy h
  simp only [List.mem_range] at hx hy
  exact name_inj_small "zero" (by omega) (by omega) h

lemma names_alpha_nodup (N : Nat) (hN : N ≤ 99) :
    ((List.range N).map fun (i : Nat) => name "alpha" ((i : Int) + 1)).Nodup := by
  rw [List.nodup_map_iff_inj_on (List.nodup_range N)]
  intro x hx y hy h
  simp only [List.mem_range] at hx hy
  exact name_inj_small "alpha" (by omega) (by omega) h

lemma buildServices_keys_nodup (opts : Options) (uid : String)
    (hz : opts.numZeros ≤ 99) (ha : opts.numAlphas ≤ 99) :
    ((buildServices opts uid).map Prod.fst).Nodup := by
  rw [buildServices_keys]
  have hzN : opts.numZeros.toNat ≤ 99 := by omega
  have haN : opts.numAlphas.toNat ≤ 99 := by omega
  rw [List.append_assoc, List.nodup_append]
  refine ⟨names_zero_nodup _ hzN, ?_, ?_⟩
  · rw [List.nodup_append]
    refine ⟨names_alpha_nodup _ haN, ?_, ?_⟩
    · cases hj : opts.jaeger <;> simp
    · intro a hma hmj
      simp only [List.mem_map, List.mem_range] at hma
      obtain ⟨i, _, rfl⟩ := hma
      rcases hj : opts.jaeger <;> rw [hj] at hmj <;> simp at hmj
      exact alpha_ne_jaeger _ hmj
  · intro a hma hmr
    simp only [List.mem_map, List.mem_range] at hma
    obtain ⟨i, _, rfl⟩ := hma
    rcases List.mem_append.mp hmr with hmb | hmj
    · simp only [List.mem_map, List.mem_range] at hmb
      obtain ⟨j, _, h⟩ := hmb
      exact zero_ne_alpha _ _ h.symm
    · rcases hj : opts.jaeger <;> rw [hj] at hmj <;> simp at hmj
      exact zero_ne_jaeger _ hmj

/-- Strict key order used to compare sorted serializations. -/
def keyLT (a b : String × Service) : Prop := a.1 < b.1

instance : IsAntisymm (String × Service) keyLT :=
  ⟨fun _ _ hab hba => absurd hba (lt_asymm hab)⟩

instance : IsTotal (String × Service) keyLE := ⟨fun a b => le_total a.1 b.1⟩

instance : IsTrans (String × Service) keyLE := ⟨fun _ _ _ h h2 => le_trans h h2⟩

lemma sorted_keyLT_of_sorted_keyLE {l : List (String × Service)}
    (hs : l.Sorted keyLE) (hnd : (l.map Prod.fst).Nodup) : l.Sorted keyLT := by
  have hne : l.Pairwise fun a b => a.1 ≠ b.1 := by
    rw [List.Nodup, List.pairwise_map] at hnd
    exact hnd
  exact (hs.and hne).imp fun h => lt_of_le_of_ne h.1 h.2

lemma sortServices_eq_of_perm {l₁ l₂ : List (String × Service)}
    (hp : l₁.Perm l₂) (hnd : (l₂.map Prod.fst).Nodup) :
    sortServices l₁ = sortServices l₂ := by
  have hp1 : (sortServices l₁).Perm (sortServices l₂) :=
    ((List.perm_insertionSort keyLE l₁).trans hp).trans
      (List.perm_insertionSort keyLE l₂).symm
  have hnd1 : ((sortServices l₁).map Prod.fst).Nodup := by
    refine (List.Perm.nodup_iff ?_).mpr hnd
    exact (hp1.trans (List.perm_insertionSort keyLE l₂)).map Prod.fst
  have hnd2 : ((sortServices l₂).map Prod.fst).Nodup := by
    refine (List.Perm.nodup_iff ?_).mpr hnd
    exact (List.perm_insertionSort keyLE l₂).map Prod.fst
  exact List.eq_of_perm_of_sorted hp1
    (sorted_keyLT_of_sorted_keyLE (List.sorted_insertionSort keyLE l₁) hnd1)
    (sorted_keyLT_of_sorted_keyLE (List.sorted_insertionSort keyLE l₂) hnd2)

lemma containsStr_of_eq (a pat b : String) {s : String} (h : s = a ++ pat ++ b) :
    containsStr s pat := by
  subst h
  simp only [containsStr, String.data_append]
  exact ⟨a.data, b.data, by simp⟩

lemma containsStr_of_eq_suffix (a pat : String) {s : String} (h : s = a ++ pat) :
    containsStr s pat := by
  subst h
  simp only [containsStr, String.data_append]
  exact ⟨a.data, [], by simp⟩

lemma containsStr_trans {s pat q : String} (h : containsStr s pat)
    (h2 : containsStr pat q) : containsStr s q :=
  List.IsInfix.trans h2 h

lemma alpha_cmd_struct (opts : Options) (uid : String) (idx : Int) :
    (getAlpha opts uid idx).command =
      ((initService opts uid "alpha" idx (alphaInternalPort opts idx + 1000)).command
        ++ " alpha -o " ++ toString (alphaBaseOffset opts + idx - 1)
        ++ " --my=" ++ (initService opts uid "alpha" idx (alphaInternalPort opts idx + 1000)).name
        ++ ":" ++ toString (alphaInternalPort opts idx))
      ++ (" --lru_mb=" ++ toString opts.lruSizeMB)
      ++ (" --zero=zero1:" ++ toString zeroBasePort)
      ++ ((" --logtostderr -v=" ++ toString opts.verbosity)
        ++ " --whitelist=10.0.0.0/8,172.16.0.0/12,192.168.0.0/16"
        ++ (if opts.enterpriseMode then
              " --enterprise_features"
              ++ (if opts.aclSecret ≠ "" then
                    " --acl_secret_file=/secret/hmac --acl_access_ttl 10s"
                  else "")
            else "")) := by
  simp only [getAlpha]
  simp [String.append_assoc]

lemma alpha_cmd_contains_acl_flags (opts : Options) (uid : String) (idx : Int)
    (he : opts.enterpriseMode = true) (ha : opts.aclSecret ≠ "") :
    containsStr (getAlpha opts uid idx).command " --enterprise_features"
    ∧ containsStr (getAlpha opts uid idx).command
        " --acl_secret_file=/secret/hmac --acl_access_ttl 10s" := by
  have h := alpha_cmd_struct opts uid idx
  rw [he] at h
  simp only [if_true, ha, ne_eq, not_false_eq_true, if_pos] at h
  constructor
  · refine containsStr_of_eq
      ((initService opts uid "alpha" idx (alphaInternalPort opts idx + 1000)).command
        ++ " alpha -o " ++ toString (alphaBaseOffset opts + idx - 1)
        ++ " --my=" ++ (initService opts uid "alpha" idx (alphaInternalPort opts idx + 1000)).name
        ++ ":" ++ toString (alphaInternalPort opts idx)
        ++ (" --lru_mb=" ++ toString opts.lruSizeMB)
        ++ (" --zero=zero1:" ++ toString zeroBasePort)
        ++ (" --logtostderr -v=" ++ toString opts.verbosity)
        ++ " --whitelist=10.0.0.0/8,172.16.0.0/12,192.168.0.0/16")
      _ " --acl_secret_file=/secret/hmac --acl_access_ttl 10s" ?_
    rw [h]
    simp [String.append_assoc]
  · refine containsStr_of_eq_suffix
      ((initService opts uid "alpha" idx (alphaInternalPort opts idx + 1000)).command
        ++ " alpha -o " ++ toString (alphaBaseOffset opts + idx - 1)
        ++ " --my=" ++ (initService opts uid "alpha" idx (alphaInternalPort opts idx + 1000)).name
        ++ ":" ++ toString (alphaInternalPort opts idx)
        ++ (" --lru_mb=" ++ toString opts.lruSizeMB)
        ++ (" --zero=zero1:" ++ toString zeroBasePort)
        ++ (" --logtostderr -v=" ++ toString opts.verbosity)
        ++ " --whitelist=10.0.0.0/8,172.16.0.0/12,192.168.0.0/16"
        ++ " --enterprise_features") _ ?_
    rw [h]
    simp [String.append_assoc]

lemma ceilOfDiv_bounds (a g : Int) (hg : 1 ≤ g) :
    g * (ceilOfDiv a g - 1) < a ∧ a ≤ g * ceilOfDiv a g := by
  unfold ceilOfDiv
  have hg0 : g ≠ 0 := by omega
  have h1 : g * ((a + g - 1).ediv g) + (a + g - 1).emod g = a + g - 1 :=
    Int.ediv_add_emod (a + g - 1) g
  have h2 : 0 ≤ (a + g - 1).emod g := Int.emod_nonneg (a + g - 1) hg0
  have h3 : (a + g - 1).emod g < g := Int.emod_lt_of_pos (a + g - 1) (by omega)
  have h4 : g * ((a + g - 1).ediv g - 1) = g * ((a + g - 1).ediv g) - g := by ring
  omega

lemma generate_error_of_sanity {opts : Options} {e : String} (uid : String)
    (args : List String) (h : sanityChecks opts = .error e) :
    generate opts uid args = .error e := by
  simp [generate, h]

end Compose

namespace Compose

lemma sanity_error_of_vol_and_dir (opts : Options) (hdv : opts.dataVol = true)
    (hdd : opts.dataDir ≠ "") : ∃ e, sanityChecks opts = .error e := by
  simp only [sanityChecks]
  split_ifs <;> first
    | exact ⟨_, rfl⟩
    | exact absurd (show opts.dataVol = true ∧ opts.dataDir ≠ "" from ⟨hdv, hdd⟩)
        (by assumption)

lemma sanity_error_of_bad_counts (opts : Options) (h : opts.numZeros < 1 ∨
    opts.numZeros > 99 ∨ opts.numAlphas < 1 ∨ opts.numAlphas > 99) :
    ∃ e, sanityChecks opts = .error e := by
  simp only [sanityChecks]
  split_ifs <;> first
    | exact ⟨_, rfl⟩
    | omega

lemma sanity_error_of_user_without_dir (opts : Options)
    (huo : opts.userOwnership = true) (hdd : opts.dataDir = "") :
    ∃ e, sanityChecks opts = .error e := by
  simp only [sanityChecks]
  split_ifs <;> first
    | exact ⟨_, rfl⟩
    | exact absurd (show opts.userOwnership = true ∧ opts.dataDir = "" from ⟨huo, hdd⟩)
        (by assumption)

end Compose

/-! ### Claim theorems -/

namespace Compose

/-- C1: for every valid option set (`NumZeros` and `NumAlphas` each in
[1,99]) the builder produces exactly `NumZeros` coordinator (zero) records
and exactly `NumAlphas` worker (alpha) records, one per index 1..N with name
`<role><index>`, all service keys distinct, plus the jaeger tracing-sidecar
record exactly when the Jaeger toggle is set. -/
theorem builder_emits_counted_records (opts : Options) (uid : String)
    (hz1 : 1 ≤ opts.numZeros) (hz99 : opts.numZeros ≤ 99)
    (ha1 : 1 ≤ opts.numAlphas) (ha99 : opts.numAlphas ≤ 99) :
    buildServices opts uid =
      ((List.range opts.numZeros.toNat).map fun (i : Nat) =>
        (name "zero" ((i : Int) + 1), getZero opts uid ((i : Int) + 1)))
      ++ ((List.range opts.numAlphas.toNat).map fun (i : Nat) =>
        (name "alpha" ((i : Int) + 1), getAlpha opts uid ((i : Int) + 1)))
      ++ (if opts.jaeger then [("jaeger", getJaeger)] else [])
    ∧ (opts.numZeros.toNat : Int) = opts.numZeros
    ∧ (opts.numAlphas.toNat : Int) = opts.numAlphas
    ∧ ((buildServices opts uid).map Prod.fst).Nodup
    ∧ (("jaeger", getJaeger) ∈ buildServices opts uid ↔ opts.jaeger = true) := by
  refine ⟨rfl, by omega, by omega, buildServices_keys_nodup opts uid hz99 ha99, ?_, ?_⟩
  · intro hm
    rcases List.mem_append.mp hm with hm1 | hmj
    · rcases List.mem_append.mp hm1 with hz | ha2
      · simp only [List.mem_map] at hz
        obtain ⟨i, _, hpair⟩ := hz
        exact absurd (congrArg Prod.fst hpair) (zero_ne_jaeger _)
      · simp only [List.mem_map] at ha2
        obtain ⟨i, _, hpair⟩ := ha2
        exact absurd (congrArg Prod.fst hpair) (alpha_ne_jaeger _)
    · rcases hj : opts.jaeger <;> rw [hj] at hmj <;> simp at hmj
  · intro hj
    have hmem : ("jaeger", getJaeger) ∈
        (if opts.jaeger then [("jaeger", getJaeger)] else []) := by
      rw [hj]; simp
    exact List.mem_append.mpr (Or.inr hmem)

/-- Witness for C1 at `NumZeros = NumAlphas = 1`. -/
theorem builder_emits_counted_records_witness :
    ((buildServices exampleOpts "").map Prod.fst).Nodup :=
  (builder_emits_counted_records exampleOpts "" (by decide) (by decide)
    (by decide) (by decide)).2.2.2.1

/-- C2: ports derive from fixed per-role bases (5080 coordinator, 7080
worker) plus offset 0 at index 1 and offset `i` at index `i > 1`; the worker
internal port additionally shifts by 100 when the test-port-range toggle is
on; each role also exposes the internal/grpc port plus the fixed offset
1000. -/
theorem port_derivation (opts : Options) (uid : String) (idx : Int)
    (h1 : 1 ≤ idx) (h99 : idx ≤ 99) :
    (getOffset 1 = 0 ∧ (idx ≠ 1 → getOffset idx = idx))
    ∧ zeroGrpcPort idx = 5080 + getOffset idx
    ∧ alphaInternalPort opts idx =
        7080 + (if opts.testPortRange then 100 else 0) + getOffset idx
    ∧ (getZero opts uid idx).ports =
        [toExposedPort (zeroGrpcPort idx), toExposedPort (zeroGrpcPort idx + 1000)]
    ∧ (getAlpha opts uid idx).ports =
        [toExposedPort (alphaInternalPort opts idx + 1000),
         toExposedPort (alphaInternalPort opts idx + 1000 + 1000)] := by
  refine ⟨⟨rfl, fun h => ?_⟩, rfl, rfl, rfl, rfl⟩
  simp [getOffset, h]

/-- Witness for C2 at index 2. -/
theorem port_derivation_witness :
    (getZero exampleOpts "" 2).ports =
      [toExposedPort (zeroGrpcPort 2), toExposedPort (zeroGrpcPort 2 + 1000)] :=
  (port_derivation exampleOpts "" 2 (by decide) (by decide)).2.2.2.1

/-- C3: for valid indices in [1,99], distinct coordinator indices get
distinct ports and distinct worker indices get distinct internal ports, for
any fixed toggles. -/
theorem role_ports_injective (opts : Options) (i j : Int)
    (hi1 : 1 ≤ i) (hi99 : i ≤ 99) (hj1 : 1 ≤ j) (hj99 : j ≤ 99) (hij : i ≠ j) :
    zeroGrpcPort i ≠ zeroGrpcPort j
    ∧ alphaInternalPort opts i ≠ alphaInternalPort opts j := by
  simp only [zeroGrpcPort, alphaInternalPort, getOffset, zeroBasePort, alphaBasePort,
    alphaBaseOffset]
  split_ifs <;> omega

/-- Witness for C3 at indices 1 and 2. -/
theorem role_ports_injective_witness :
    zeroGrpcPort 1 ≠ zeroGrpcPort 2
    ∧ alphaInternalPort exampleOpts 1 ≠ alphaInternalPort exampleOpts 2 :=
  role_ports_injective exampleOpts 1 2 (by decide) (by decide) (by decide)
    (by decide) (by decide)

/-- C4: an access-control secret with enterprise mode off makes option
resolution succeed with a warning, force enterprise mode on, and every
worker command then contains the enterprise-features flag together with the
ACL secret flags. -/
theorem acl_secret_forces_enterprise (opts : Options) (uid : String)
    (hz1 : 1 ≤ opts.numZeros) (hz99 : opts.numZeros ≤ 99)
    (ha1 : 1 ≤ opts.numAlphas) (ha99 : opts.numAlphas ≤ 99)
    (hlru : 1024 ≤ opts.lruSizeMB)
    (hacl : opts.aclSecret ≠ "") (hent : opts.enterpriseMode = false)
    (hvol : ¬(opts.dataVol = true ∧ opts.dataDir ≠ ""))
    (husr : ¬(opts.userOwnership = true ∧ opts.dataDir = "")) :
    sanityChecks opts = .ok ({ opts with enterpriseMode := true },
      ["adding --enterprise because it is required by ACL feature"])
    ∧ ∀ idx : Int,
        containsStr (getAlpha { opts with enterpriseMode := true } uid idx).command
          " --enterprise_features"
        ∧ containsStr (getAlpha { opts with enterpriseMode := true } uid idx).command
            " --acl_secret_file=/secret/hmac --acl_access_ttl 10s" := by
  refine ⟨?_, fun idx => alpha_cmd_contains_acl_flags _ uid idx rfl hacl⟩
  simp only [sanityChecks]
  split_ifs with h1 h2 h3 h4
  · omega
  · omega
  · omega
  · rfl
  · exact absurd ⟨hacl, hent⟩ h4

/-- Witness for C4 with the flag defaults plus an ACL secret file. -/
theorem acl_secret_forces_enterprise_witness :
    sanityChecks { exampleOpts with aclSecret := "/secret-file" } =
      .ok ({ exampleOpts with aclSecret := "/secret-file", enterpriseMode := true },
        ["adding --enterprise because it is required by ACL feature"]) :=
  (acl_secret_forces_enterprise { exampleOpts with aclSecret := "/secret-file" } ""
    (by decide) (by decide) (by decide) (by decide) (by decide) (by decide) rfl
    (by decide) (by decide)).1

/-- C5: supplying both volume flags, node counts outside [1,99], or
user-ownership without a data directory each make the run fail with a fatal
error and no topology output. -/
theorem invalid_flag_combinations_fatal (opts : Options) (uid : String)
    (args : List String) :
    ((opts.dataVol = true ∧ opts.dataDir ≠ "") →
        ∃ e, generate opts uid args = .error e)
    ∧ ((opts.numZeros < 1 ∨ opts.numZeros > 99 ∨ opts.numAlphas < 1 ∨
          opts.numAlphas > 99) → ∃ e, generate opts uid args = .error e)
    ∧ ((opts.userOwnership = true ∧ opts.dataDir = "") →
        ∃ e, generate opts uid args = .error e) := by
  refine ⟨fun h => ?_, fun h => ?_, fun h => ?_⟩
  · obtain ⟨e, he⟩ := sanity_error_of_vol_and_dir opts h.1 h.2
    exact ⟨e, generate_error_of_sanity uid args he⟩
  · obtain ⟨e, he⟩ := sanity_error_of_bad_counts opts h
    exact ⟨e, generate_error_of_sanity uid args he⟩
  · obtain ⟨e, he⟩ := sanity_error_of_user_without_dir opts h.1 h.2
    exact ⟨e, generate_error_of_sanity uid args he⟩

/-- Witness for C5 with both volume flags set. -/
theorem invalid_flag_combinations_fatal_witness :
    ∃ e, generate { exampleOpts with dataVol := true, dataDir := "/posting" } "" []
      = .error e :=
  (invalid_flag_combinations_fatal
    { exampleOpts with dataVol := true, dataDir := "/posting" } "" []).1
    ⟨rfl, by decide⟩

set_option maxRecDepth 40000 in
/-- C6: with `NumZeros = 1` and `NumAlphas = 1` the builder emits exactly
the records `zero1` and `alpha1`; the coordinator command advertises the
coordinator base port, has `--bindall` and no `--peer` flag; the worker
command has `--zero=zero1:5080`. -/
theorem example_single_zero_single_alpha :
    (buildServices exampleOpts "").map Prod.fst = ["zero1", "alpha1"]
    ∧ containsStr (getZero exampleOpts "" 1).command "--my=zero1:5080"
    ∧ containsStr (getZero exampleOpts "" 1).command "--bindall"
    ∧ ¬ containsStr (getZero exampleOpts "" 1).command "--peer"
    ∧ containsStr (getAlpha exampleOpts "" 1).command "--zero=zero1:5080" := by
  decide

/-- C7: every coordinator command contains the replicas flag with value the
exact integer ceiling of `NumAlphas / NumGroups`. -/
theorem replicas_flag_is_exact_ceiling (opts : Options) (uid : String) (idx : Int)
    (ha1 : 1 ≤ opts.numAlphas) (ha99 : opts.numAlphas ≤ 99)
    (hg : 1 ≤ opts.numGroups) :
    containsStr (getZero opts uid idx).command
      (" --replicas=" ++ toString (ceilOfDiv opts.numAlphas opts.numGroups))
    ∧ opts.numGroups * (ceilOfDiv opts.numAlphas opts.numGroups - 1) < opts.numAlphas
    ∧ opts.numAlphas ≤ opts.numGroups * ceilOfDiv opts.numAlphas opts.numGroups := by
  obtain ⟨hb1, hb2⟩ := ceilOfDiv_bounds opts.numAlphas opts.numGroups hg
  refine ⟨?_, hb1, hb2⟩
  refine containsStr_of_eq
    ((initService opts uid "zero" idx (zeroGrpcPort idx)).command
      ++ " zero -o " ++ toString (idx - 1) ++ " --idx=" ++ toString idx
      ++ " --my=" ++ (initService opts uid "zero" idx (zeroGrpcPort idx)).name
      ++ ":" ++ toString (zeroGrpcPort idx))
    _
    ((" --logtostderr -v=" ++ toString opts.verbosity)
      ++ (if idx = 1 then " --bindall"
          else " --peer=" ++ name "zero" 1 ++ ":" ++ toString zeroBasePort)) ?_
  show (getZero opts uid idx).command = _
  simp only [getZero]
  simp [String.append_assoc]

/-- Witness for C7 with the flag defaults at index 1. -/
theorem replicas_flag_is_exact_ceiling_witness :
    containsStr (getZero exampleOpts "" 1).command
      (" --replicas=" ++ toString (ceilOfDiv exampleOpts.numAlphas exampleOpts.numGroups)) :=
  (replicas_flag_is_exact_ceiling exampleOpts "" 1 (by decide) (by decide)
    (by decide)).1

/-- C8: the rendered output is a deterministic function of the options and
argument vector; in particular any two iteration orders of the service map
serialize to byte-identical documents thanks to the deterministic key
ordering. -/
theorem identical_runs_render_identically (opts : Options) (uid : String)
    (args : List String) (hz99 : opts.numZeros ≤ 99) (ha99 : opts.numAlphas ≤ 99)
    (l₁ l₂ : List (String × Service))
    (h₁ : l₁.Perm (buildServices opts uid)) (h₂ : l₂.Perm (buildServices opts uid)) :
    renderConfig opts l₁ args = renderConfig opts l₂ args := by
  have hnd : ((buildServices opts uid).map Prod.fst).Nodup :=
    buildServices_keys_nodup opts uid hz99 ha99
  have hnd2 : (l₂.map Prod.fst).Nodup := (h₂.map Prod.fst).nodup_iff.mpr hnd
  have hs : sortServices l₁ = sortServices l₂ :=
    sortServices_eq_of_perm (h₁.trans h₂.symm) hnd2
  simp [renderConfig, hs]

/-- Witness for C8 with the flag defaults. -/
theorem identical_runs_render_identically_witness :
    renderConfig exampleOpts (buildServices exampleOpts "") ["compose"]
      = renderConfig exampleOpts (buildServices exampleOpts "") ["compose"] :=
  identical_runs_render_identically exampleOpts "" ["compose"] (by decide) (by decide)
    (buildServices exampleOpts "") (buildServices exampleOpts "")
    (List.Perm.refl _) (List.Perm.refl _)

/-- C9: the ACL secret (and the enterprise toggle it forces) leaves every
coordinator (zero) record unchanged; the secret volume mount is added only
to worker (alpha) records. -/
theorem acl_secret_leaves_zero_records_unchanged (opts : Options) (uid : String)
    (idx : Int) (s : String) (b : Bool) :
    getZero { opts with aclSecret := s, enterpriseMode := b } uid idx
      = getZero opts uid idx
    ∧ (opts.enterpriseMode = true → opts.aclSecret ≠ "" →
        (getAlpha opts uid idx).volumes =
          (initService opts uid "alpha" idx (alphaInternalPort opts idx + 1000)).volumes
          ++ [Volume.mk "bind" opts.aclSecret "/secret/hmac" true]) := by
  refine ⟨rfl, fun he ha => ?_⟩
  simp only [getAlpha]
  simp [he, ha]

/-- Witness for C9 with an ACL secret and enterprise mode on. -/
theorem acl_secret_leaves_zero_records_unchanged_witness :
    (getAlpha { exampleOpts with enterpriseMode := true, aclSecret := "/secret-file" }
        "" 1).volumes =
      (initService { exampleOpts with enterpriseMode := true, aclSecret := "/secret-file" }
        "" "alpha" 1
        (alphaInternalPort
          { exampleOpts with enterpriseMode := true, aclSecret := "/secret-file" } 1
          + 1000)).volumes
      ++ [Volume.mk "bind" "/secret-file" "/secret/hmac" true] :=
  (acl_secret_leaves_zero_records_unchanged
    { exampleOpts with enterpriseMode := true, aclSecret := "/secret-file" } "" 1
    "" false).2 rfl (by decide)

/-- C10: every worker command contains `--zero=zero1:5080`, connecting it to
the first coordinator at the fixed coordinator base port, regardless of the
options and the worker's index. -/
theorem workers_connect_first_zero (opts : Options) (uid : String) (idx : Int)
    (h1 : 1 ≤ idx) (hN : idx ≤ opts.numAlphas) :
    containsStr (getAlpha opts uid idx).command "--zero=zero1:5080" := by
  have hbig : containsStr (getAlpha opts uid idx).command
      (" --zero=zero1:" ++ toString zeroBasePort) :=
    containsStr_of_eq _ _ _ (alpha_cmd_struct opts uid idx)
  exact containsStr_trans hbig (by decide)

/-- Witness for C10 at index 1. -/
theorem workers_connect_first_zero_witness :
    containsStr (getAlpha exampleOpts "" 1).command "--zero=zero1:5080" :=
  workers_connect_first_zero exampleOpts "" 1 (by decide) (by decide)

end Compose
